import Mathlib

/-!
Shallow embedding of the Akhand Jyoti archive scraper
(`final_scrapping.py` and `gpu_optimised.py`) and proofs about it.

Pure fragments of the Python code are translated into executable Lean
functions; effectful fragments (HTTP fetches, `time.sleep`, file writes)
are made explicit by threading the observable events (per-attempt HTTP
outcomes, sleep durations, saved files, file-system operations) through
the functions as inputs and outputs.
-/

namespace Akhand

/-! ### Python `int()` model

`int(s)` on a string strips surrounding whitespace, accepts an optional
sign followed by one or more decimal digits, and raises `ValueError`
otherwise (modelled as `none`). -/

def pyTrim (cs : List Char) : List Char :=
  ((cs.dropWhile Char.isWhitespace).reverse.dropWhile Char.isWhitespace).reverse

def digitsVal (cs : List Char) : Nat :=
  cs.foldl (fun a c => a * 10 + (c.toNat - 48)) 0

def pyInt (s : String) : Option Int :=
  match pyTrim s.data with
  | [] => none
  | '+' :: rest =>
      if !rest.isEmpty && rest.all Char.isDigit then some (digitsVal rest) else none
  | '-' :: rest =>
      if !rest.isEmpty && rest.all Char.isDigit then some (-(digitsVal rest : Int)) else none
  | cs =>
      if cs.all Char.isDigit then some (digitsVal cs) else none

/-! ### FetchClient: `RequestManager.make_request` (gpu_optimised.py 100-126)

One call of `self.session.get` per loop iteration is modelled by an
`HttpEvent`: either a response with a status code (and, for 429s, the
value of the `Retry-After` header if present) or a raised exception.
The function returns whether a 200 was obtained, the sequence of
`time.sleep` durations performed, and the number of loop iterations
(attempts) executed. -/

inductive HttpEvent where
  | resp (status : Nat) (retryAfter : Option String)
  | exc
  deriving Repr, DecidableEq

structure ReqTrace where
  success : Bool
  sleeps : List Nat
  attempts : Nat
  deriving Repr, DecidableEq

/-- Sleep performed by the 429 branch:
`retry_after = int(response.headers.get('Retry-After', 30)); time.sleep(retry_after)`.
A missing header yields the default `30`; a string that `int()` rejects, or a
negative value handed to `time.sleep`, raises inside the `try` and reaches the
generic `except` handler, which sleeps `2 ** attempt`. -/
def retryAfterSleep (ra : Option String) (attempt : Nat) : Nat :=
  match ra with
  | none => 30
  | some s =>
      match pyInt s with
      | some n => if n < 0 then 2 ^ attempt else n.toNat
      | none => 2 ^ attempt

/-- One iteration of the retry loop: `none` means the attempt returned the
response (status 200); `some d` means the iteration slept `d` seconds and
the loop continues with the next attempt. -/
def attemptStep (e : HttpEvent) (attempt : Nat) : Option Nat :=
  match e with
  | .exc => some (2 ^ attempt)
  | .resp s ra =>
      if s = 200 then none
      else if s = 429 then some (retryAfterSleep ra attempt)
      else some (2 ^ attempt)

def MAX_RETRIES : Nat := 3

def makeRequestGo : Nat → List HttpEvent → ReqTrace
  | _, [] => ⟨false, [], 0⟩
  | attempt, e :: rest =>
      match attemptStep e attempt with
      | none => ⟨true, [], 1⟩
      | some d =>
          let t := makeRequestGo (attempt + 1) rest
          ⟨t.success, d :: t.sleeps, t.attempts + 1⟩

/-- `RequestManager.make_request`, abstracted over the per-attempt HTTP
outcomes. The `for attempt in range(MAX_RETRIES)` loop consumes at most
`MAX_RETRIES` outcomes; `success = false` with all events consumed is the
`return None` after exhaustion. -/
def make_request (events : List HttpEvent) : ReqTrace :=
  makeRequestGo 0 (events.take MAX_RETRIES)

/-- An attempt outcome that is neither a 200 nor a 429: a non-200 status or a
transport-level exception. -/
def failLike (e : HttpEvent) : Bool :=
  match e with
  | .resp s _ => !(s == 200) && !(s == 429)
  | .exc => true

/-- `final_scrapping.py`'s `make_request` (lines 25-48): a single
`requests.get`, returning the response only on status 200 and `None` on any
other status or exception; there is no retry loop. -/
def fs_make_request (e : HttpEvent) : Bool :=
  match e with
  | .resp s _ => s = 200
  | .exc => false

/-! ### PaginationEnumerator

`final_scrapping.py` `get_pagination_links` (lines 144-162) extracts the
versioned base path with `re.search(r'(.*/v\d+)', url)` and appends
`.2 … .max_pages`; if the pattern is absent it returns just `[url]`.

`gpu_optimised.py` `get_pagination_links` (lines 183-213) first fetches
page 1 and, when an element with class or id `pagination` is present,
takes the largest `int()`-parsable link text as the detected page count,
replacing `max_pages` by `min(max_pages, detected)` when `detected > 0`;
page URLs are then generated as
`f"{url}.{page}" if '.' not in url else f"{url[:-2]}.{page}"`. -/

/-- Does this list of characters end with `/v` followed by one or more
(ASCII) digits? (The site URLs are ASCII.) -/
def endsWithVNum (cs : List Char) : Bool :=
  let r := cs.reverse
  let ds := r.takeWhile Char.isDigit
  !ds.isEmpty &&
    (match r.drop ds.length with
     | 'v' :: '/' :: _ => true
     | _ => false)

/-- `re.search(r'(.*/v\d+)', url)` group 1: with the greedy `.*` this is the
longest prefix of `url` ending in `/v` followed by digits, or `none` when no
such prefix exists. -/
def vBase (url : String) : Option String :=
  (List.range (url.data.length + 1)).reverse.findSome? fun j =>
    let p := url.data.take j
    if endsWithVNum p then some (String.mk p) else none

/-- `final_scrapping.py` `get_pagination_links`. -/
def get_pagination_links (url : String) (max_pages : Nat := 3) : List String :=
  match vBase url with
  | none => [url]
  | some base =>
      url :: (List.range' 2 (max_pages - 1)).map (fun p => base ++ "." ++ toString p)

/-- `f"{url}.{page}" if '.' not in url else f"{url[:-2]}.{page}"`
(`url[:-2]` drops the last two characters). -/
def gpu_page_url (url : String) (page : Nat) : String :=
  if !url.data.contains '.' then url ++ "." ++ toString page
  else String.mk (url.data.take (url.data.length - 2)) ++ "." ++ toString page

/-- `max_detected` as computed from the link texts of the pagination element:
starting from 0, each `int()`-parsable text replaces the maximum when strictly
greater. -/
def maxDetected (linkTexts : List String) : Nat :=
  (linkTexts.foldl
    (fun acc t =>
      match pyInt t with
      | some n => if acc < n then n else acc
      | none => acc)
    (0 : Int)).toNat

/-- `gpu_optimised.py` `get_pagination_links`. `pagLinks` is `some texts`
when the fetch of page 1 succeeded and a pagination element was found
(`texts` being its link texts), and `none` otherwise. -/
def gpu_get_pagination_links (url : String) (pagLinks : Option (List String))
    (max_pages : Nat := 36) : List String :=
  let mp :=
    match pagLinks with
    | some texts =>
        let d := maxDetected texts
        if 0 < d then min max_pages d else max_pages
    | none => max_pages
  url :: (List.range' 2 (mp - 1)).map (gpu_page_url url)

/-! ### ContentExtractor

A fetched page is abstracted by what BeautifulSoup observes of it:
`selectorResults` holds, in chain order, the result of `soup.select_one`
for each selector of the chain
(`final_scrapping.py`: `div#contentArtcile, div.article-content,
div.content, article, main`; `gpu_optimised.py` additionally
`div.post-content, div.entry-content`), and `blocks` holds
`soup.find_all(['div', 'article', 'section'])` in document order.
A `Tag` records the two text observations the code makes of an element:
`strippedLen` is `len(tag.get_text(strip=True))` and `text` is
`tag.get_text(separator='\n\n')`. bs4 `Tag.__bool__` is constantly `True`,
so `if content` / `if not content` test only against `None`. -/

structure Tag where
  strippedLen : Nat
  text : String
  deriving Repr, DecidableEq

structure TextPage where
  selectorResults : List (Option Tag)
  blocks : List Tag
  deriving Repr, DecidableEq

/-- The selector loop
`for selector in [...]: content = soup.select_one(selector);
if content and len(content.get_text(strip=True)) > 100: break`.
Note that after a completed (un-broken) loop, `content` still holds the
last selector's result. -/
def selectorLoop : List (Option Tag) → Option Tag
  | [] => none
  | [r] => r
  | none :: r :: rs => selectorLoop (r :: rs)
  | some t :: r :: rs =>
      if 100 < t.strippedLen then some t else selectorLoop (r :: rs)

/-- `max(text_blocks, key=lambda tag: len(tag.get_text(strip=True)))`:
Python `max` keeps the first element on ties, replacing the current best
only on a strictly greater key. -/
def pickMax : Option Tag → List Tag → Option Tag
  | acc, [] => acc
  | none, t :: rest => pickMax (some t) rest
  | some m, t :: rest =>
      if m.strippedLen < t.strippedLen then pickMax (some t) rest
      else pickMax (some m) rest

/-- The fallback `text_blocks = [tag for tag in soup.find_all([...]) if
len(tag.get_text(strip=True)) > 500]` followed by `max` (or nothing when the
list is empty). -/
def largestBlock (blocks : List Tag) : Option Tag :=
  pickMax none (blocks.filter fun t => 500 < t.strippedLen)

/-- Content selection for one page: the selector loop, then — only when it
left `content = None` — the largest-block fallback. -/
def extract_content (p : TextPage) : Option Tag :=
  match selectorLoop p.selectorResults with
  | some t => some t
  | none => largestBlock p.blocks

/-- `re.sub(r'\n{3,}', '\n\n', text)`: each maximal run of `k ≥ 3` newlines
becomes exactly two; shorter runs are untouched. `run` counts the pending
newline run. -/
def squeezeGo : Nat → List Char → List Char
  | run, [] => List.replicate (min run 2) '\n'
  | run, c :: rest =>
      if c = '\n' then squeezeGo (run + 1) rest
      else List.replicate (min run 2) '\n' ++ c :: squeezeGo 0 rest

def cleanText (s : String) : String :=
  String.mk (squeezeGo 0 s.data)

def pageMarker (n : Nat) : String :=
  "\n\n--- PAGE " ++ toString n ++ " ---\n\n"

/-- The sequential page loop of `final_scrapping.py` `download_text_content`
(lines 170-205). The list element at position `i` is the fetched page `i+1`
(`none` when `make_request` returned `None`); the result is
`(content_found, all_text)` accumulated in loop order. -/
def collect_text : Nat → List (Option TextPage) → String × Bool
  | _, [] => ("", false)
  | i, pg :: rest =>
      let tail := collect_text (i + 1) rest
      match pg with
      | none => tail
      | some p =>
          match extract_content p with
          | none => tail
          | some t => (pageMarker (i + 1) ++ cleanText t.text ++ tail.1, true)

/-- `final_scrapping.py` `download_text_content`: returns whether the job
succeeded and the combined text written to the output file (`none` when no
content was found — the file is not written in that case). -/
def download_text_content (pages : List (Option TextPage)) : Bool × Option String :=
  let r := collect_text 0 pages
  if r.2 then (true, some r.1) else (false, none)

/-- `page_num = re.search(r'\.(\d+)$', page_url)` of
`gpu_optimised.py` `process_text_page`: the trailing digit run when preceded
by a dot, else `"1"`. -/
def gpu_page_num (page_url : String) : String :=
  let r := page_url.data.reverse
  let ds := r.takeWhile Char.isDigit
  if !ds.isEmpty && (r.drop ds.length).head? = some '.' then String.mk ds.reverse
  else "1"

/-- `gpu_optimised.py` `process_text_page` (lines 244-281): one worker's
result for one page; `none` when the fetch failed or no content was found. -/
def gpu_process_text_page (page_url : String) (fetched : Option TextPage) :
    Option String :=
  match fetched with
  | none => none
  | some p =>
      match extract_content p with
      | none => none
      | some t =>
          some ("\n\n--- PAGE " ++ gpu_page_num page_url ++ " ---\n\n" ++ cleanText t.text)

/-- `gpu_optimised.py` `download_text_content` (lines 215-242): the
orchestrator appends each worker result to `all_text` in the order
`concurrent.futures.as_completed` yields the futures — the argument list is
the per-page results in **completion order**, not page order. -/
def gpu_download_text_content (completed : List (Option String)) : Bool × Option String :=
  let r := completed.foldl
    (fun (st : String × Bool) res =>
      match res with
      | none => st
      | some txt => (st.1 ++ txt, true))
    ("", false)
  if r.2 then (true, some r.1) else (false, none)

/-! ### ImageHarvester

An `<img>` element is abstracted by its `src`, `width` and `height`
attributes (each `none` when absent). Binary fetches are abstracted by an
oracle `fb : String → Option String` mapping a resolved URL to the
response's `Content-Type` header (`''` stands for a missing header) on
success, and to `none` when `make_request` returned `None`. URL resolution
`urljoin` is kept abstract as a parameter `uj`. -/

structure Img where
  src : Option String
  width : Option String
  height : Option String
  deriving Repr, DecidableEq

/-- A `frame`/`iframe` element of the page, together with what the
fallback observes of it: its `src` attribute, whether fetching the frame
document succeeded, and the `<img>` elements found in the fetched frame
document. -/
structure FrameDoc where
  src : Option String
  fetchOk : Bool
  imgs : List Img
  deriving Repr, DecidableEq

structure ScanPage where
  imgs : List Img
  frames : List FrameDoc
  deriving Repr, DecidableEq

/-- A saved image file: base name (without extension) and extension. -/
structure Saved where
  name : String
  ext : String
  deriving Repr, DecidableEq

/-- Contiguous-substring test used for `'icon' in src.lower()` etc. -/
def containsSub (hay needle : List Char) : Bool :=
  match hay with
  | [] => needle.isEmpty
  | _ :: t => needle.isPrefixOf hay || containsSub t needle

def strContains (hay needle : String) : Bool :=
  containsSub hay.data needle.data

/-- `str.lower()` (character-wise). -/
def strLower (s : String) : String :=
  String.mk (s.data.map Char.toLower)

/-- `any(x in src.lower() for x in ['icon', 'logo', 'button', 'nav'])` -/
def denylisted (src : String) : Bool :=
  ["icon", "logo", "button", "nav"].any fun x => strContains (strLower src) x

/-- `s.replace('px', '')`: removes every (non-overlapping, left-to-right)
occurrence of `px`. -/
def removePx : List Char → List Char
  | 'p' :: 'x' :: rest => removePx rest
  | c :: rest => c :: removePx rest
  | [] => []

def pyIntPx (s : String) : Option Int :=
  pyInt (String.mk (removePx s.data))

/-- `final_scrapping.py` `download_scan_images` size check (lines 246-255):
`is_large_image` starts `True`; only when both attributes are present are the
two `int(... .replace('px',''))` conversions attempted, and only when both
succeed is the `< 300` test applied; any `ValueError` is swallowed by
`except: pass`, leaving `True`. -/
def is_large_image (img : Img) : Bool :=
  match img.width, img.height with
  | some w, some h =>
      match pyIntPx w, pyIntPx h with
      | some wi, some hi => !(wi < 300 || hi < 300)
      | _, _ => true
  | _, _ => true

/-- `gpu_optimised.py` `process_scan_page` size check (lines 330-337):
`width = img.get('width', '0')`, `height = img.get('height', '0')` — an
absent attribute defaults to the string `'0'` — then
`if int(width.replace('px','')) < 300 or int(height.replace('px','')) < 300:
continue`, with any exception swallowed (image kept). Returns `true` when the
image is skipped. Note Python's `or` short-circuits: when the width already
parses below 300 the height conversion is never attempted. -/
def gpu_small_skip (img : Img) : Bool :=
  let w := img.width.getD "0"
  let h := img.height.getD "0"
  match pyIntPx w with
  | none => false
  | some wi =>
      if wi < 300 then true
      else
        match pyIntPx h with
        | none => false
        | some hi => hi < 300

/-- Does `final_scrapping.py` attempt to download this `<img>` candidate?
Returns its `src` when the source-attribute, denylist and size filters all
pass. -/
def final_accepts (img : Img) : Option String :=
  match img.src with
  | none => none
  | some src =>
      if denylisted src then none
      else if is_large_image img then some src
      else none

/-- Does `gpu_optimised.py` attempt to download this `<img>` candidate? -/
def gpu_accepts (img : Img) : Option String :=
  match img.src with
  | none => none
  | some src =>
      if denylisted src then none
      else if gpu_small_skip img then none
      else some src

/-- Zero-padding of `f"{n:03d}"` / `f"{n:02d}"`. -/
def pad (w n : Nat) : String :=
  let s := toString n
  String.mk (List.replicate (w - s.length) '0') ++ s

/-- Extension choice from the `Content-Type` header: `'png' in ct` → png,
`elif 'gif' in ct` → gif, else the default jpg. -/
def extFor (contentType : String) : String :=
  let ct := strLower contentType
  if strContains ct "png" then "png"
  else if strContains ct "gif" then "gif"
  else "jpg"

/-- Direct image phase of `final_scrapping.py` `download_scan_images`
(lines 237-283): for each `<img>` (enumerated from `i`), apply the
source/denylist/size filters, fetch, and save
`page_{page_index+1:03d}img{i+1:03d}.{ext}`. -/
def direct_saves (uj : String → String → String) (fb : String → Option String)
    (page_url : String) (page_index : Nat) : Nat → List Img → List Saved
  | _, [] => []
  | i, img :: rest =>
      let tail := direct_saves uj fb page_url page_index (i + 1) rest
      match img.src with
      | none => tail
      | some src =>
          if denylisted src then tail
          else if !is_large_image img then tail
          else
            match fb (uj page_url src) with
            | none => tail
            | some ct =>
                ⟨"page_" ++ pad 3 (page_index + 1) ++ "img" ++ pad 3 (i + 1), extFor ct⟩
                  :: tail

/-- Inner loop of the frame fallback (lines 297-306): every `<img>` of the
frame document that has a `src` is fetched and, on success, saved as
`page_{page_index+1:03d}frame{j+1:02d}img{k+1:02d}.jpg` — no denylist, no
size filter, and the extension is always `jpg` whatever the content type. -/
def frame_img_saves (uj : String → String → String) (fb : String → Option String)
    (frame_url : String) (page_index j : Nat) : Nat → List Img → List Saved
  | _, [] => []
  | k, img :: rest =>
      let tail := frame_img_saves uj fb frame_url page_index j (k + 1) rest
      match img.src with
      | none => tail
      | some isrc =>
          match fb (uj frame_url isrc) with
          | none => tail
          | some _ =>
              ⟨"page_" ++ pad 3 (page_index + 1) ++ "frame" ++ pad 2 (j + 1)
                  ++ "img" ++ pad 2 (k + 1), "jpg"⟩
                :: tail

/-- Outer loop of the frame fallback (lines 286-296): each frame with a
`src` is resolved and fetched; on success its images are harvested one level
deep. -/
def frame_saves (uj : String → String → String) (fb : String → Option String)
    (page_url : String) (page_index : Nat) : Nat → List FrameDoc → List Saved
  | _, [] => []
  | j, fr :: rest =>
      let tail := frame_saves uj fb page_url page_index (j + 1) rest
      match fr.src with
      | none => tail
      | some fsrc =>
          if fr.fetchOk then
            frame_img_saves uj fb (uj page_url fsrc) page_index j 0 fr.imgs ++ tail
          else tail

/-- One page of `final_scrapping.py` `download_scan_images` (lines 225-306):
the direct phase, then — only when it downloaded zero images
(`page_downloaded == 0`) — the frame fallback. Returns the files saved for
this page. -/
def download_scan_page (uj : String → String → String) (fb : String → Option String)
    (page_url : String) (page_index : Nat) (page : ScanPage) : List Saved :=
  let direct := direct_saves uj fb page_url page_index 0 page.imgs
  if direct.length = 0 then direct ++ frame_saves uj fb page_url page_index 0 page.frames
  else direct

/-! ### HarvestPipeline month orchestration

The per-month body of `main` (`final_scrapping.py` 372-425,
`gpu_optimised.py` 404-452), abstracted over the outcome of the two jobs:
`text_ok` (resp. `scan_ok`) is what `download_text_content`
(resp. `download_scan_images`) would return if invoked. -/

structure MonthMeta where
  has_text : Bool
  has_scan : Bool
  text_source : Option String
  scan_source : Option String
  deriving Repr, DecidableEq

structure MonthRun where
  meta : MonthMeta
  text_job_invoked : Bool
  scan_job_invoked : Bool
  text_file_after : Bool
  deriving Repr, DecidableEq

/-- The scan branch `if not text_downloaded and versions.get('scan'):` —
returns the updated metadata and whether `download_scan_images` was called. -/
def scan_phase (m : MonthMeta) (scan_url : Option String) (scan_ok : Bool) :
    MonthMeta × Bool :=
  match scan_url with
  | none => (m, false)
  | some su =>
      if scan_ok then ({ m with has_scan := true, scan_source := some su }, true)
      else (m, true)

/-- One month of `main`: `file_exists` is `os.path.exists(text_file)` at the
start. The text job runs only when a text URL is present and the output file
does not already exist; the scan job only when the text phase left
`text_downloaded` false. `text_file_after` records whether the text output
file exists afterwards (`download_text_content` writes it only on success). -/
def process_month (text_url scan_url : Option String) (file_exists text_ok scan_ok : Bool) :
    MonthRun :=
  let m0 : MonthMeta := ⟨false, false, none, none⟩
  match text_url with
  | some tu =>
      if file_exists then
        ⟨⟨true, false, some tu, none⟩, false, false, true⟩
      else if text_ok then
        ⟨⟨true, false, some tu, none⟩, true, false, true⟩
      else
        let (m, inv) := scan_phase m0 scan_url scan_ok
        ⟨m, true, inv, false⟩
  | none =>
      let (m, inv) := scan_phase m0 scan_url scan_ok
      ⟨m, false, inv, false⟩

/-- Does this fetched page yield an extraction candidate? -/
def pageYields (op : Option TextPage) : Bool :=
  match op with
  | none => false
  | some p => (extract_content p).isSome

/-- Did this page contribute *non-empty* content to the combined text? -/
def page_contributes_nonempty (op : Option TextPage) : Bool :=
  match op with
  | none => false
  | some p =>
      match extract_content p with
      | none => false
      | some t => !(t.text == "")

/-! ### Progress Store

The metadata write at the end of every month is
`with open(metadata_file, 'w', encoding='utf-8') as f: json.dump(metadata, f, ...)`
(`final_scrapping.py` 423-425, `gpu_optimised.py` 450-452). File-system
effects are modelled as a sequence of operations on the store file: opening
with mode `'w'` truncates it in place; writes append; an atomic strategy
would instead write a temporary file and rename it over the target.
Interrupting the process after `k` operations leaves the state
`runOps st (ops.take k)`. -/

structure StoreState where
  main : Option String
  tmp : Option String
  deriving Repr, DecidableEq

inductive StoreOp where
  | openTrunc
  | writeMain (s : String)
  | openTmp
  | writeTmp (s : String)
  | renameTmp
  deriving Repr, DecidableEq

def applyOp (st : StoreState) : StoreOp → StoreState
  | .openTrunc => { st with main := some "" }
  | .writeMain s => { st with main := some ((st.main.getD "") ++ s) }
  | .openTmp => { st with tmp := some "" }
  | .writeTmp s => { st with tmp := some ((st.tmp.getD "") ++ s) }
  | .renameTmp => ⟨st.tmp, none⟩

def runOps (st : StoreState) (ops : List StoreOp) : StoreState :=
  ops.foldl applyOp st

/-- The operation sequence the code performs to persist the metadata record
`serialized`: truncate in place, then write. -/
def metadata_write_ops (serialized : String) : List StoreOp :=
  [.openTrunc, .writeMain serialized]

/-- Atomic-replace semantics: at every interruption point the store file
holds either the previous record or the complete new one. -/
def atomic_replace (ops : List StoreOp) (oldC : Option String) (newC : String) : Prop :=
  ∀ k, (runOps ⟨oldC, none⟩ (ops.take k)).main = oldC ∨
    (runOps ⟨oldC, none⟩ (ops.take k)).main = some newC

/-- First selector of the chain whose stripped visible text exceeds 100
characters (the criterion of the claimed fallback chain). -/
def firstQual (rs : List (Option Tag)) : Option Tag :=
  rs.findSome? fun r =>
    match r with
    | some t => if 100 < t.strippedLen then some t else none
    | none => none

/-! ### Concrete fixtures used by the counterexamples and witnesses -/

/-- A page whose second selector (`div.article-content`) matches a
150-character element. -/
def qualPage : TextPage :=
  ⟨[none, some ⟨150, "alpha"⟩, none, none, none], [⟨600, "big"⟩]⟩

/-- A page where no selector passes the 100-character threshold but the last
selector of the chain (`main`) still matches an element — e.g.
`<main><img/></main>` wrapped around 50 characters of boilerplate — and no
block exceeds 500 characters. -/
def shortMainPage : TextPage :=
  ⟨[none, none, none, none, some ⟨50, "short main text"⟩], []⟩

/-- A page where the last selector matches an element with no text at all
(e.g. `<main><img/></main>`): `strippedLen = 0` and
`get_text(separator='\n\n') = ''`. -/
def emptyMainPage : TextPage :=
  ⟨[none, none, none, none, some ⟨0, ""⟩], []⟩

/-- Three pages of an issue whose first selector matches 150-character
content, used with the gpu pipeline (7-selector chain, trailing entries
elided as the loop breaks at the first hit). -/
def pgAlpha : TextPage := ⟨[some ⟨150, "alpha"⟩, none, none, none, none, none, none], []⟩

def pgBravo : TextPage := ⟨[some ⟨150, "bravo"⟩, none, none, none, none, none, none], []⟩

def pgCharlie : TextPage := ⟨[some ⟨150, "charlie"⟩, none, none, none, none, none, none], []⟩

/-- The same three pages against the 5-selector chain of
`final_scrapping.py`. -/
def pgAlpha5 : TextPage := ⟨[some ⟨150, "alpha"⟩, none, none, none, none], []⟩

def pgBravo5 : TextPage := ⟨[some ⟨150, "bravo"⟩, none, none, none, none], []⟩

def pgCharlie5 : TextPage := ⟨[some ⟨150, "charlie"⟩, none, none, none, none], []⟩

def urlIssue : String := "http://e.org/v10"

/-- Worker results for pages 1, 2, 3 of the issue (page 2 and 3 URLs as the
gpu pipeline generates them). -/
def resAlpha : Option String := gpu_process_text_page urlIssue (some pgAlpha)

def resBravo : Option String := gpu_process_text_page (gpu_page_url urlIssue 2) (some pgBravo)

def resCharlie : Option String := gpu_process_text_page (gpu_page_url urlIssue 3) (some pgCharlie)

/-- `urljoin` stand-in for concrete scenarios. -/
def ujFix (base rel : String) : String := base ++ "/" ++ rel

/-- A binary-fetch oracle that always succeeds with a PNG content type. -/
def fbPng (_ : String) : Option String := some "image/png"

/-- A scan page with no usable direct images and one frame whose document
holds a single image that is both denylisted (`nav`, `icon` in its path) and
tiny (50×40). -/
def scanPageFix : ScanPage :=
  ⟨[], [⟨some "f.html", true, [⟨some "nav_icon_tiny.gif", some "50", some "40"⟩]⟩]⟩

/-! ## Helper lemmas -/

theorem attemptStep_of_failLike {e : HttpEvent} (a : Nat) (h : failLike e = true) :
    attemptStep e a = some (2 ^ a) := by
  cases e with
  | exc => rfl
  | resp s ra =>
      simp only [failLike, Bool.and_eq_true, Bool.not_eq_true', beq_eq_false_iff_ne] at h
      simp [attemptStep, h.1, h.2]

theorem collect_text_found (i : Nat) (ps : List (Option TextPage)) :
    (collect_text i ps).2 = ps.any pageYields := by
  induction ps generalizing i with
  | nil => rfl
  | cons pg rest ih =>
      cases pg with
      | none => simpa [collect_text, pageYields] using ih (i + 1)
      | some p =>
          cases hc : extract_content p with
          | none => simp [collect_text, hc, pageYields, ih (i + 1)]
          | some t => simp [collect_text, hc, pageYields]

/-! ## Claims -/

/-- C1: the claim "for every issue processed by the text job, the combined
output text concatenates the per-page content candidates in ascending
page-index order, regardless of the order in which the page fetches
complete" fails for `gpu_optimised.py`: its `download_text_content` appends
worker results as `as_completed` yields them. With pages 1, 2, 3 finishing
in completion order [3, 1, 2], the combined text carries the pages in order
3, 1, 2 — not in index order, and different from the text produced by
completion order [1, 2, 3]. The sequential `final_scrapping.py` loop, shown
in the last conjunct, does assemble in ascending index order. -/
theorem C1_gpu_assembles_in_completion_order :
    gpu_download_text_content [resCharlie, resAlpha, resBravo] =
      (true, some ("\n\n--- PAGE 3 ---\n\ncharlie" ++ "\n\n--- PAGE 1 ---\n\nalpha"
        ++ "\n\n--- PAGE 2 ---\n\nbravo")) ∧
    gpu_download_text_content [resCharlie, resAlpha, resBravo] ≠
      gpu_download_text_content [resAlpha, resBravo, resCharlie] ∧
    download_text_content [some pgAlpha5, some pgBravo5, some pgCharlie5] =
      (true, some ("\n\n--- PAGE 1 ---\n\nalpha" ++ "\n\n--- PAGE 2 ---\n\nbravo"
        ++ "\n\n--- PAGE 3 ---\n\ncharlie")) := by
  decide

/-- C2 counterexample: the claim "on HTTP 429 the client sleeps the
Retry-After duration (30 s when absent or unparsable) and retries without
consuming one of the MAX_RETRIES attempt slots" is false.
(1) Three successive 429 responses exhaust all `MAX_RETRIES = 3` loop
iterations and the call gives up (`success = false`), so each 429 retry did
consume an attempt slot; (2) after one 429 only two backoff attempts remain
before exhaustion; (3) an unparsable `Retry-After: soon` makes `int()` raise
inside the `try`, so the handler sleeps `2 ** attempt` (1, then 2, 4), never
the claimed 30 s default. -/
theorem C2_rate_limit_counterexample :
    make_request (List.replicate 3 (.resp 429 (some "5"))) = ⟨false, [5, 5, 5], 3⟩ ∧
    make_request [.resp 429 (some "5"), .resp 500 none, .resp 500 none] =
      ⟨false, [5, 2, 4], 3⟩ ∧
    make_request (List.replicate 3 (.resp 429 (some "soon"))) = ⟨false, [1, 2, 4], 3⟩ := by
  decide

/-- C2 (amended): on HTTP 429 the client sleeps for the parsed Retry-After
duration (30 s only when the header is absent) and then proceeds to the next
loop iteration, so the 429 consumes one of the MAX_RETRIES attempt slots —
only the exponential-backoff sleep is skipped; a present-but-unparsable
header raises inside the `try` and is handled like any other failure with a
`2 ^ attempt` sleep, also consuming a slot. -/
theorem C2_rate_limit_behavior (s t : String) (n : Int)
    (hs : pyInt s = some n) (hn : 0 ≤ n) (ht : pyInt t = none) :
    make_request (List.replicate MAX_RETRIES (.resp 429 (some s))) =
      ⟨false, List.replicate MAX_RETRIES n.toNat, MAX_RETRIES⟩ ∧
    make_request (List.replicate MAX_RETRIES (.resp 429 none)) =
      ⟨false, List.replicate MAX_RETRIES 30, MAX_RETRIES⟩ ∧
    make_request (List.replicate MAX_RETRIES (.resp 429 (some t))) =
      ⟨false, [2 ^ 0, 2 ^ 1, 2 ^ 2], MAX_RETRIES⟩ := by
  have hn' : ¬ n < 0 := not_lt.mpr hn
  refine ⟨?_, ?_, ?_⟩ <;>
    simp [make_request, MAX_RETRIES, List.replicate, makeRequestGo, attemptStep,
      retryAfterSleep, hs, ht, hn']

/-- C2 witness. -/
theorem C2_rate_limit_behavior_witness :
    pyInt "5" = some 5 ∧ (0 : Int) ≤ 5 ∧ pyInt "soon" = none ∧
    (make_request (List.replicate MAX_RETRIES (.resp 429 (some "5"))) =
        ⟨false, List.replicate MAX_RETRIES ((5 : Int)).toNat, MAX_RETRIES⟩ ∧
      make_request (List.replicate MAX_RETRIES (.resp 429 none)) =
        ⟨false, List.replicate MAX_RETRIES 30, MAX_RETRIES⟩ ∧
      make_request (List.replicate MAX_RETRIES (.resp 429 (some "soon"))) =
        ⟨false, [2 ^ 0, 2 ^ 1, 2 ^ 2], MAX_RETRIES⟩) :=
  ⟨by decide, by decide, by decide,
    C2_rate_limit_behavior "5" "soon" 5 (by decide) (by decide) (by decide)⟩

/-- C3 counterexample: the claim that the per-month metadata write "is an
atomic replace: a failed or interrupted write leaves the previously
persisted record intact and never produces a partially written file" is
false for the code's `open(metadata_file, 'w'); json.dump(...)` sequence:
interrupting after the truncating open leaves an empty file, which is
neither the old record `"A"` nor the new record `"B"`. -/
theorem C3_store_write_counterexample :
    ¬ atomic_replace (metadata_write_ops "B") (some "A") "B" := by
  intro h
  have e : (runOps ⟨some "A", none⟩ ((metadata_write_ops "B").take 1)).main = some "" := by
    decide
  rcases h 1 with h1 | h1
  · rw [e] at h1
    exact absurd h1 (by decide)
  · rw [e] at h1
    exact absurd h1 (by decide)

/-- C3 (amended): after every completed month the progress metadata file is
rewritten, but by truncating the file in place and writing the new record
(`open(..., 'w')` + `json.dump`), not by an atomic replace: the completed
sequence does produce exactly the new record, yet interrupting between the
truncation and the completed write leaves an empty (partially written) file
in place of the previous record, so atomic-replace semantics fail whenever
the old record exists and the new one is non-empty. -/
theorem C3_store_write_truncates_in_place (oldC : Option String) (new : String)
    (h1 : oldC ≠ some "") (h2 : new ≠ "") :
    runOps ⟨oldC, none⟩ (metadata_write_ops new) = ⟨some new, none⟩ ∧
    (runOps ⟨oldC, none⟩ ((metadata_write_ops new).take 1)).main = some "" ∧
    ¬ atomic_replace (metadata_write_ops new) oldC new := by
  refine ⟨rfl, rfl, ?_⟩
  intro h
  rcases h 1 with h' | h'
  · exact h1 h'.symm
  · exact h2 (Option.some.inj h').symm

/-- C3 witness. -/
theorem C3_store_write_truncates_in_place_witness :
    (some "A" : Option String) ≠ some "" ∧ "B" ≠ "" ∧
    (runOps ⟨some "A", none⟩ (metadata_write_ops "B") = ⟨some "B", none⟩ ∧
      (runOps ⟨some "A", none⟩ ((metadata_write_ops "B").take 1)).main = some "" ∧
      ¬ atomic_replace (metadata_write_ops "B") (some "A") "B") :=
  ⟨by decide, by decide,
    C3_store_write_truncates_in_place (some "A") "B" (by decide) (by decide)⟩

/-- C4: the claim "if either size attribute is absent or unparsable, the
candidate is not disqualified and is downloaded" is contradicted by
`gpu_optimised.py` `process_scan_page`, which defaults an absent `width` or
`height` to the string `'0'`, parses `0 < 300`, and skips the image: an
`<img src="fullscan.jpg">` with no size attributes is downloaded by
`final_scrapping.py` (per the claim) but dropped by `gpu_optimised.py`.
The remaining conjuncts check the claim's other cases on both
implementations: both parseable below 300 → rejected; both ≥ 300 →
accepted; unparsable width → accepted. -/
theorem C4_gpu_drops_unsized_images :
    gpu_accepts ⟨some "fullscan.jpg", none, none⟩ = none ∧
    final_accepts ⟨some "fullscan.jpg", none, none⟩ = some "fullscan.jpg" ∧
    final_accepts ⟨some "scan.jpg", some "200", some "200"⟩ = none ∧
    gpu_accepts ⟨some "scan.jpg", some "200px", some "200"⟩ = none ∧
    final_accepts ⟨some "scan.jpg", some "400px", some "400"⟩ = some "scan.jpg" ∧
    gpu_accepts ⟨some "scan.jpg", some "400", some "400"⟩ = some "scan.jpg" ∧
    final_accepts ⟨some "scan.jpg", some "wide", some "50"⟩ = some "scan.jpg" := by
  decide

/-- C6: when the text output file for an issue already exists at the start
of the month, the run records `has_text = true` with the text source URL,
invokes neither `download_text_content` nor `download_scan_images` (zero
network fetches for the issue), leaves the file in place, and its outcome is
independent of the job oracles — so a second run over the same state changes
nothing. The last conjunct shows a first successful download leaves the file
present for the next run. -/
theorem C6_existing_text_file_short_circuits (tu : String) (su : Option String)
    (tok sok tok2 sok2 : Bool) :
    process_month (some tu) su true tok sok =
      ⟨⟨true, false, some tu, none⟩, false, false, true⟩ ∧
    process_month (some tu) su true tok sok = process_month (some tu) su true tok2 sok2 ∧
    (process_month (some tu) su false true sok).text_file_after = true :=
  ⟨rfl, rfl, rfl⟩

/-- C5: a fetch whose every attempt fails with a non-200, non-429 status or
a transport error performs exactly `MAX_RETRIES` attempts, sleeping
`2 ^ attempt` seconds after each (a non-decreasing schedule), and returns
failure (`None`). The callers treat that `None` as a skipped page, not a job
failure: in the sequential loop a failed page contributes nothing (the loop
state just moves past it) and job success is unchanged, and the gpu worker
maps a failed fetch to an empty per-page result. -/
theorem C5_retry_exhaustion (events : List HttpEvent) (ps : List (Option TextPage))
    (hl : events.length = MAX_RETRIES) (h : ∀ e ∈ events, failLike e = true) :
    make_request events = ⟨false, [2 ^ 0, 2 ^ 1, 2 ^ 2], MAX_RETRIES⟩ ∧
    List.Chain' (fun a b => a ≤ b) [2 ^ 0, 2 ^ 1, 2 ^ 2] ∧
    (∀ i, collect_text i (none :: ps) = collect_text (i + 1) ps) ∧
    (download_text_content (none :: ps)).1 = (download_text_content ps).1 ∧
    (∀ u, gpu_process_text_page u none = none) := by
  obtain ⟨a, b, c, rfl⟩ := List.length_eq_three.mp (by simpa [MAX_RETRIES] using hl)
  have sa := attemptStep_of_failLike 0 (h a (by simp))
  have sb := attemptStep_of_failLike 1 (h b (by simp))
  have sc := attemptStep_of_failLike 2 (h c (by simp))
  refine ⟨?_, by norm_num [List.chain'_cons, List.chain'_singleton], fun i => rfl, ?_,
    fun u => rfl⟩
  · simp [make_request, MAX_RETRIES, makeRequestGo, sa, sb, sc]
  · have e : (collect_text 1 ps).2 = (collect_text 0 ps).2 := by
      rw [collect_text_found, collect_text_found]
    simp only [download_text_content]
    have e0 : collect_text 0 (none :: ps) = collect_text 1 ps := rfl
    rw [e0, e]
    cases h2 : (collect_text 0 ps).2 <;> simp [h2]

/-- C5 witness. -/
theorem C5_retry_exhaustion_witness :
    ([HttpEvent.resp 500 none, HttpEvent.exc, HttpEvent.resp 404 none].length = MAX_RETRIES) ∧
    (∀ e ∈ [HttpEvent.resp 500 none, HttpEvent.exc, HttpEvent.resp 404 none],
      failLike e = true) ∧
    (make_request [HttpEvent.resp 500 none, HttpEvent.exc, HttpEvent.resp 404 none] =
        ⟨false, [2 ^ 0, 2 ^ 1, 2 ^ 2], MAX_RETRIES⟩ ∧
      List.Chain' (fun a b => a ≤ b) [2 ^ 0, 2 ^ 1, 2 ^ 2] ∧
      (∀ i, collect_text i (none :: [some qualPage]) = collect_text (i + 1) [some qualPage]) ∧
      (download_text_content (none :: [some qualPage])).1 =
        (download_text_content [some qualPage]).1 ∧
      (∀ u, gpu_process_text_page u none = none)) :=
  ⟨by decide, by decide,
    C5_retry_exhaustion [HttpEvent.resp 500 none, HttpEvent.exc, HttpEvent.resp 404 none]
      [some qualPage] (by decide) (by decide)⟩

/-- C7 counterexample: the claim that "subsequent elements are the issue's
versioned base path with suffixes .2, .3, … appended" is false for
`gpu_optimised.py`: since the issue URL contains a dot, page URLs are built
from `url[:-2]`, so for the versioned base `.../1950/v10` the second page
becomes `.../1950/v.2` rather than `.../1950/v10.2`. -/
theorem C7_gpu_suffix_counterexample :
    gpu_get_pagination_links "http://literature.awgp.org/hindi/akhandjyoti/1950/v10" none 3 =
      ["http://literature.awgp.org/hindi/akhandjyoti/1950/v10",
        "http://literature.awgp.org/hindi/akhandjyoti/1950/v.2",
        "http://literature.awgp.org/hindi/akhandjyoti/1950/v.3"] ∧
    vBase "http://literature.awgp.org/hindi/akhandjyoti/1950/v10" =
      some "http://literature.awgp.org/hindi/akhandjyoti/1950/v10" ∧
    ("http://literature.awgp.org/hindi/akhandjyoti/1950/v.2" : String) ≠
      "http://literature.awgp.org/hindi/akhandjyoti/1950/v10.2" := by
  decide

/-- C7 (amended): pagination always starts with the issue URL itself.
`final_scrapping.py` appends `.2 … .max_pages` to the versioned base path
extracted by `(.*/v\d+)` (returning just the URL when the pattern is
absent) and never consults a pagination marker. `gpu_optimised.py` instead
appends `.k` to the URL with its last two characters dropped (the URL always
contains a dot); when a pagination marker on page 1 reveals a highest page
number `d > 0` it enumerates `min(max_pages, d)` pages and otherwise uses
the ceiling unchanged, so the configured ceiling is never exceeded. -/
theorem C7_pagination_amended (url base : String) (mp : Nat) (texts : List String)
    (hb : vBase url = some base) :
    get_pagination_links url mp =
      url :: (List.range' 2 (mp - 1)).map (fun p => base ++ "." ++ toString p) ∧
    (∀ u : String, vBase u = none → ∀ m : Nat, get_pagination_links u m = [u]) ∧
    gpu_get_pagination_links url none mp =
      url :: (List.range' 2 (mp - 1)).map (gpu_page_url url) ∧
    (0 < maxDetected texts →
      gpu_get_pagination_links url (some texts) mp =
        url :: (List.range' 2 (min mp (maxDetected texts) - 1)).map (gpu_page_url url)) ∧
    (maxDetected texts = 0 →
      gpu_get_pagination_links url (some texts) mp =
        url :: (List.range' 2 (mp - 1)).map (gpu_page_url url)) ∧
    (gpu_get_pagination_links url (some texts) mp).length ≤ max mp 1 ∧
    (gpu_get_pagination_links url none mp).length ≤ max mp 1 := by
  refine ⟨?_, ?_, rfl, ?_, ?_, ?_, ?_⟩
  · simp [get_pagination_links, hb]
  · intro u hu m
    simp [get_pagination_links, hu]
  · intro hd
    simp [gpu_get_pagination_links, hd]
  · intro hd
    simp [gpu_get_pagination_links, hd]
  · simp only [gpu_get_pagination_links, List.length_cons, List.length_map,
      List.length_range']
    by_cases hd : 0 < maxDetected texts
    · simp only [if_pos hd]
      have := Nat.min_le_left mp (maxDetected texts)
      omega
    · simp only [if_neg hd]
      omega
  · simp only [gpu_get_pagination_links, List.length_cons, List.length_map,
      List.length_range']
    omega

/-- C7 witness. -/
theorem C7_pagination_amended_witness :
    vBase "http://x/v7" = some "http://x/v7" ∧
    (get_pagination_links "http://x/v7" 3 =
        "http://x/v7" :: (List.range' 2 (3 - 1)).map
          (fun p => "http://x/v7" ++ "." ++ toString p) ∧
      (∀ u : String, vBase u = none → ∀ m : Nat, get_pagination_links u m = [u]) ∧
      gpu_get_pagination_links "http://x/v7" none 3 =
        "http://x/v7" :: (List.range' 2 (3 - 1)).map (gpu_page_url "http://x/v7") ∧
      (0 < maxDetected ["2"] →
        gpu_get_pagination_links "http://x/v7" (some ["2"]) 3 =
          "http://x/v7" :: (List.range' 2 (min 3 (maxDetected ["2"]) - 1)).map
            (gpu_page_url "http://x/v7")) ∧
      (maxDetected ["2"] = 0 →
        gpu_get_pagination_links "http://x/v7" (some ["2"]) 3 =
          "http://x/v7" :: (List.range' 2 (3 - 1)).map (gpu_page_url "http://x/v7")) ∧
      (gpu_get_pagination_links "http://x/v7" (some ["2"]) 3).length ≤ max 3 1 ∧
      (gpu_get_pagination_links "http://x/v7" none 3).length ≤ max 3 1) :=
  ⟨by decide, C7_pagination_amended "http://x/v7" "http://x/v7" 3 ["2"] (by decide)⟩

/-- C8 counterexample: the claim "the text job returns success if and only
if at least one page contributed non-empty content" is false: on a page
where the selector chain's last selector (`main`) matches an element with no
text (e.g. `<main><img/></main>`) and no block exceeds 500 characters, the
leaked loop variable makes the job succeed while every page's contributed
content is empty. -/
theorem C8_success_without_content_counterexample :
    (download_text_content [some emptyMainPage]).1 = true ∧
    (∀ op ∈ [some emptyMainPage], page_contributes_nonempty op = false) := by
  decide

/-- C8 (amended): the text job returns success iff at least one page yielded
an extraction candidate — stated unconditionally, for every run (such a
candidate's text may exceptionally be empty, per the last-selector leak);
when it fails, the output file is not written (`none`), the caller invokes
the scan job for the month, and the month's metadata ends with
`has_text = false` and no text file — the failure is not propagated
further. -/
theorem C8_zero_content_fallback (ps : List (Option TextPage)) (tu su : String) (sok : Bool) :
    ((download_text_content ps).1 = true ↔ ps.any pageYields = true) ∧
    ((download_text_content ps).1 = false →
      (download_text_content ps).2 = none ∧
      (process_month (some tu) (some su) false (download_text_content ps).1 sok).scan_job_invoked
        = true ∧
      (process_month (some tu) (some su) false (download_text_content ps).1 sok).meta.has_text
        = false ∧
      (process_month (some tu) (some su) false (download_text_content ps).1 sok).text_file_after
        = false) := by
  have hf := collect_text_found 0 ps
  constructor
  · rw [← hf]
    simp only [download_text_content]
    cases h2 : (collect_text 0 ps).2 <;> simp [h2]
  · intro h
    refine ⟨?_, ?_, ?_, ?_⟩
    · simp only [download_text_content] at h ⊢
      cases h2 : (collect_text 0 ps).2
      · simp [h2]
      · rw [h2] at h
        simp at h
    · rw [h]
      cases sok <;> rfl
    · rw [h]
      cases sok <;> rfl
    · rw [h]
      cases sok <;> rfl

/-- C8 witness: the biconditional exercised on a successful run (one page
with a qualifying candidate), and the failure branch exercised on a run with
no pages, its hypothesis discharged concretely. -/
theorem C8_zero_content_fallback_witness :
    ((download_text_content [some qualPage]).1 = true ↔
      [some qualPage].any pageYields = true) ∧
    (download_text_content ([] : List (Option TextPage))).1 = false ∧
    ((download_text_content ([] : List (Option TextPage))).2 = none ∧
      (process_month (some "T") (some "S") false
          (download_text_content ([] : List (Option TextPage))).1 true).scan_job_invoked
        = true ∧
      (process_month (some "T") (some "S") false
          (download_text_content ([] : List (Option TextPage))).1 true).meta.has_text
        = false ∧
      (process_month (some "T") (some "S") false
          (download_text_content ([] : List (Option TextPage))).1 true).text_file_after
        = false) :=
  ⟨(C8_zero_content_fallback [some qualPage] "T" "S" true).1, by decide,
    (C8_zero_content_fallback [] "T" "S" true).2 (by decide)⟩

theorem selectorLoop_eq_of_firstQual_some (rs : List (Option Tag)) (t : Tag)
    (h : firstQual rs = some t) : selectorLoop rs = some t := by
  induction rs with
  | nil => simp [firstQual] at h
  | cons r rest ih =>
      cases rest with
      | nil =>
          cases r with
          | none => simp [firstQual] at h
          | some u =>
              by_cases hu : 100 < u.strippedLen
              · have : u = t := by simpa [firstQual, hu] using h
                subst this
                rfl
              · simp [firstQual, hu] at h
      | cons r2 rs2 =>
          cases r with
          | none =>
              have h' : firstQual (r2 :: rs2) = some t := by
                simpa [firstQual] using h
              simpa [selectorLoop] using ih h'
          | some u =>
              by_cases hu : 100 < u.strippedLen
              · have : u = t := by simpa [firstQual, hu] using h
                subst this
                simp [selectorLoop, hu]
              · have h' : firstQual (r2 :: rs2) = some t := by
                  simpa [firstQual, hu] using h
                simpa [selectorLoop, hu] using ih h'

theorem selectorLoop_eq_getLast_of_firstQual_none (rs : List (Option Tag))
    (h : firstQual rs = none) : selectorLoop rs = rs.getLast?.join := by
  induction rs with
  | nil => rfl
  | cons r rest ih =>
      cases rest with
      | nil => cases r <;> simp [selectorLoop]
      | cons r2 rs2 =>
          rw [List.getLast?_cons_cons]
          cases r with
          | none =>
              have h' : firstQual (r2 :: rs2) = none := by
                simpa [firstQual] using h
              simpa [selectorLoop] using ih h'
          | some u =>
              by_cases hu : 100 < u.strippedLen
              · simp [firstQual, hu] at h
              · have h' : firstQual (r2 :: rs2) = none := by
                  simpa [firstQual, hu] using h
                simpa [selectorLoop, hu] using ih h'

theorem pickMax_some_mem_max (l : List Tag) : ∀ (acc t : Tag),
    pickMax (some acc) l = some t →
    (t = acc ∨ t ∈ l) ∧ acc.strippedLen ≤ t.strippedLen ∧
      ∀ u ∈ l, u.strippedLen ≤ t.strippedLen := by
  induction l with
  | nil =>
      intro acc t h
      obtain rfl : acc = t := Option.some.inj h
      exact ⟨Or.inl rfl, le_refl _, by simp⟩
  | cons b rest ih =>
      intro acc t h
      by_cases hb : acc.strippedLen < b.strippedLen
      · rw [show pickMax (some acc) (b :: rest) = pickMax (some b) rest from by
          simp [pickMax, hb]] at h
        obtain ⟨hm, hle, hall⟩ := ih b t h
        refine ⟨?_, le_trans (le_of_lt hb) hle, ?_⟩
        · rcases hm with rfl | hm
          · exact Or.inr (List.mem_cons_self _ _)
          · exact Or.inr (List.mem_cons_of_mem _ hm)
        · intro u hu
          rcases List.mem_cons.mp hu with rfl | hu
          · exact hle
          · exact hall u hu
      · rw [show pickMax (some acc) (b :: rest) = pickMax (some acc) rest from by
          simp [pickMax, hb]] at h
        obtain ⟨hm, hle, hall⟩ := ih acc t h
        refine ⟨?_, hle, ?_⟩
        · rcases hm with rfl | hm
          · exact Or.inl rfl
          · exact Or.inr (List.mem_cons_of_mem _ hm)
        · intro u hu
          rcases List.mem_cons.mp hu with rfl | hu
          · exact le_trans (le_of_not_lt hb) hle
          · exact hall u hu

theorem largestBlock_spec (blocks : List Tag) (t : Tag)
    (h : largestBlock blocks = some t) :
    500 < t.strippedLen ∧ t ∈ blocks ∧
      ∀ u ∈ blocks, 500 < u.strippedLen → u.strippedLen ≤ t.strippedLen := by
  unfold largestBlock at h
  cases hl : blocks.filter (fun u => 500 < u.strippedLen) with
  | nil =>
      rw [hl] at h
      exact absurd h (by simp [pickMax])
  | cons b rest =>
      rw [hl] at h
      obtain ⟨hm, hle, hall⟩ := pickMax_some_mem_max rest b t h
      have htl : t ∈ blocks.filter (fun u => 500 < u.strippedLen) := by
        rw [hl]
        rcases hm with rfl | hm
        · exact List.mem_cons_self _ _
        · exact List.mem_cons_of_mem _ hm
      have ht := List.mem_filter.mp htl
      refine ⟨by simpa using ht.2, ht.1, ?_⟩
      intro u hu hu500
      have hul : u ∈ blocks.filter (fun u => 500 < u.strippedLen) :=
        List.mem_filter.mpr ⟨hu, by simpa using hu500⟩
      rw [hl] at hul
      rcases List.mem_cons.mp hul with rfl | hul
      · exact hle
      · exact hall u hul

/-- C9 counterexample: the claim "if no selector qualifies [>100 chars] and
no block exceeds 500 characters, the page yields None" is false: when the
last selector of the chain (`main`) matches a sub-threshold element, the
leaked loop variable `content` is non-None after the loop, the fallback is
skipped, and the element is used. -/
theorem C9_short_last_selector_counterexample :
    firstQual shortMainPage.selectorResults = none ∧
    shortMainPage.blocks = [] ∧
    extract_content shortMainPage = some ⟨50, "short main text"⟩ := by
  decide

/-- C9 (amended): extraction returns the first selector in the chain whose
stripped text exceeds 100 characters; when no selector qualifies, the match
of the *last* selector is returned whenever it is non-None (even below the
threshold), and only when the last selector matched nothing does extraction
fall back to the single longest div/article/section block above 500
characters (first such block on ties), yielding None when no such block
exists. -/
theorem C9_selector_chain (p : TextPage) :
    (∀ t, firstQual p.selectorResults = some t → extract_content p = some t) ∧
    (firstQual p.selectorResults = none → ∀ t,
      p.selectorResults.getLast? = some (some t) → extract_content p = some t) ∧
    (firstQual p.selectorResults = none → p.selectorResults.getLast?.join = none →
      extract_content p = largestBlock p.blocks) ∧
    (∀ t, largestBlock p.blocks = some t →
      500 < t.strippedLen ∧ t ∈ p.blocks ∧
        ∀ u ∈ p.blocks, 500 < u.strippedLen → u.strippedLen ≤ t.strippedLen) ∧
    ((p.blocks.filter fun u => 500 < u.strippedLen) = [] → largestBlock p.blocks = none) := by
  refine ⟨?_, ?_, ?_, fun t h => largestBlock_spec p.blocks t h, ?_⟩
  · intro t h
    rw [extract_content, selectorLoop_eq_of_firstQual_some _ _ h]
  · intro h t hlast
    rw [extract_content, selectorLoop_eq_getLast_of_firstQual_none _ h, hlast]
    rfl
  · intro h hjoin
    rw [extract_content, selectorLoop_eq_getLast_of_firstQual_none _ h, hjoin]
  · intro h
    rw [largestBlock, h]
    rfl

/-- C9 witness. -/
theorem C9_selector_chain_witness :
    firstQual qualPage.selectorResults = some ⟨150, "alpha"⟩ ∧
    extract_content qualPage = some ⟨150, "alpha"⟩ :=
  ⟨by decide, (C9_selector_chain qualPage).1 ⟨150, "alpha"⟩ (by decide)⟩

theorem frame_img_saves_ext (uj : String → String → String) (fb : String → Option String)
    (furl : String) (pidx j : Nat) : ∀ (k0 : Nat) (imgs : List Img) (s : Saved),
    s ∈ frame_img_saves uj fb furl pidx j k0 imgs → s.ext = "jpg" := by
  intro k0 imgs
  induction imgs generalizing k0 with
  | nil => intro s h; simp [frame_img_saves] at h
  | cons img rest ih =>
      intro s h
      rw [frame_img_saves] at h
      rcases hsrc : img.src with _ | isrc
      · simp only [hsrc] at h
        exact ih (k0 + 1) s h
      · rcases hfb : fb (uj furl isrc) with _ | ct
        · simp only [hsrc, hfb] at h
          exact ih (k0 + 1) s h
        · simp only [hsrc, hfb] at h
          rcases List.mem_cons.mp h with rfl | h'
          · rfl
          · exact ih (k0 + 1) s h'

theorem frame_saves_ext (uj : String → String → String) (fb : String → Option String)
    (purl : String) (pidx : Nat) : ∀ (j0 : Nat) (frames : List FrameDoc) (s : Saved),
    s ∈ frame_saves uj fb purl pidx j0 frames → s.ext = "jpg" := by
  intro j0 frames
  induction frames generalizing j0 with
  | nil => intro s h; simp [frame_saves] at h
  | cons fr rest ih =>
      intro s h
      rw [frame_saves] at h
      rcases hsrc : fr.src with _ | fsrc
      · simp only [hsrc] at h
        exact ih (j0 + 1) s h
      · cases hok : fr.fetchOk
        · simp only [hsrc, hok, Bool.false_eq_true, if_false] at h
          exact ih (j0 + 1) s h
        · simp only [hsrc, hok, if_true] at h
          rcases List.mem_append.mp h with h' | h'
          · exact frame_img_saves_ext uj fb (uj purl fsrc) pidx j0 0 fr.imgs s h'
          · exact ih (j0 + 1) s h'

theorem frame_img_saves_mem (uj : String → String → String) (fb : String → Option String)
    (furl : String) (pidx j : Nat) : ∀ (imgs : List Img) (k0 k : Nat) (img : Img)
    (isrc ct : String), imgs[k]? = some img → img.src = some isrc →
    fb (uj furl isrc) = some ct →
    (⟨"page_" ++ pad 3 (pidx + 1) ++ "frame" ++ pad 2 (j + 1) ++ "img" ++ pad 2 (k0 + k + 1),
        "jpg"⟩ : Saved) ∈ frame_img_saves uj fb furl pidx j k0 imgs := by
  intro imgs
  induction imgs with
  | nil => intro k0 k img isrc ct hk; simp at hk
  | cons b rest ih =>
      intro k0 k img isrc ct hk hsrc hfb
      cases k with
      | zero =>
          have hb : b = img := by simpa using hk
          rw [frame_img_saves]
          simp only [hb, hsrc, hfb, Nat.add_zero]
          exact List.mem_cons_self _ _
      | succ k' =>
          have hk' : rest[k']? = some img := by simpa using hk
          have hmem := ih (k0 + 1) k' img isrc ct hk' hsrc hfb
          have harith : k0 + 1 + k' + 1 = k0 + (k' + 1) + 1 := by omega
          rw [harith] at hmem
          rw [frame_img_saves]
          rcases hbsrc : b.src with _ | bsrc
          · simp only [hbsrc]
            exact hmem
          · rcases hbfb : fb (uj furl bsrc) with _ | bct
            · simp only [hbsrc, hbfb]
              exact hmem
            · simp only [hbsrc, hbfb]
              exact List.mem_cons_of_mem _ hmem

theorem frame_saves_mem (uj : String → String → String) (fb : String → Option String)
    (purl : String) (pidx : Nat) : ∀ (frames : List FrameDoc) (j0 j : Nat) (fr : FrameDoc)
    (s : Saved) (fsrc : String), frames[j]? = some fr → fr.src = some fsrc →
    fr.fetchOk = true →
    s ∈ frame_img_saves uj fb (uj purl fsrc) pidx (j0 + j) 0 fr.imgs →
    s ∈ frame_saves uj fb purl pidx j0 frames := by
  intro frames
  induction frames with
  | nil => intro j0 j fr s fsrc hj; simp at hj
  | cons b rest ih =>
      intro j0 j fr s fsrc hj hsrc hok hmem
      cases j with
      | zero =>
          have hb : b = fr := by simpa using hj
          rw [frame_saves]
          simp only [hb, hsrc, hok, if_true]
          rw [Nat.add_zero] at hmem
          exact List.mem_append.mpr (Or.inl hmem)
      | succ j' =>
          have hj' : rest[j']? = some fr := by simpa using hj
          have harith : j0 + 1 + j' = j0 + (j' + 1) := by omega
          have hmem' := ih (j0 + 1) j' fr s fsrc hj' hsrc hok (by rw [harith]; exact hmem)
          rw [frame_saves]
          rcases hbsrc : b.src with _ | bsrc
          · simp only [hbsrc]
            exact hmem'
          · cases hbok : b.fetchOk
            · simp only [hbsrc, hbok, Bool.false_eq_true, if_false]
              exact hmem'
            · simp only [hbsrc, hbok, if_true]
              exact List.mem_append.mpr (Or.inr hmem')

/-- C10: in the frame fallback of the image job — run exactly when the
direct phase downloaded zero images — every image found inside a fetched
frame document that has a `src` and whose binary fetch succeeds is saved
unconditionally: the saved set is the frame harvest itself, every saved file
carries the `.jpg` extension regardless of content type, and a save happens
with no denylist or size hypothesis on the image. The final conjunct is the
converse trigger condition: when the direct phase downloaded at least one
image, the frames are never inspected. -/
theorem C10_frame_fallback_unconditional (uj : String → String → String)
    (fb : String → Option String) (purl : String) (pidx : Nat) (page : ScanPage)
    (h : direct_saves uj fb purl pidx 0 page.imgs = []) :
    download_scan_page uj fb purl pidx page = frame_saves uj fb purl pidx 0 page.frames ∧
    (∀ s ∈ frame_saves uj fb purl pidx 0 page.frames, s.ext = "jpg") ∧
    (∀ j fr, page.frames[j]? = some fr → ∀ fsrc, fr.src = some fsrc → fr.fetchOk = true →
      ∀ k img, fr.imgs[k]? = some img → ∀ isrc, img.src = some isrc →
      ∀ ct, fb (uj (uj purl fsrc) isrc) = some ct →
      (⟨"page_" ++ pad 3 (pidx + 1) ++ "frame" ++ pad 2 (j + 1) ++ "img" ++ pad 2 (k + 1),
          "jpg"⟩ : Saved) ∈ download_scan_page uj fb purl pidx page) ∧
    (∀ page2 : ScanPage, direct_saves uj fb purl pidx 0 page2.imgs ≠ [] →
      download_scan_page uj fb purl pidx page2 = direct_saves uj fb purl pidx 0 page2.imgs) := by
  have hmain : download_scan_page uj fb purl pidx page =
      frame_saves uj fb purl pidx 0 page.frames := by
    rw [download_scan_page, h]
    rfl
  refine ⟨hmain, fun s hs => frame_saves_ext uj fb purl pidx 0 page.frames s hs, ?_, ?_⟩
  · intro j fr hj fsrc hfsrc hok k img hk isrc hisrc ct hct
    rw [hmain]
    have h1 := frame_img_saves_mem uj fb (uj purl fsrc) pidx j fr.imgs 0 k img isrc ct
      hk hisrc hct
    have h2 : (0 : Nat) + k + 1 = k + 1 := by omega
    rw [h2] at h1
    refine frame_saves_mem uj fb purl pidx page.frames 0 j fr _ fsrc hj hfsrc hok ?_
    have h3 : (0 : Nat) + j = j := by omega
    rw [h3]
    exact h1
  · intro page2 hne
    rw [download_scan_page, if_neg ?_]
    intro hz
    exact hne (List.length_eq_zero.mp hz)

/-- C10 witness. -/
theorem C10_frame_fallback_unconditional_witness :
    direct_saves ujFix fbPng "p" 0 0 scanPageFix.imgs = [] ∧
    (download_scan_page ujFix fbPng "p" 0 scanPageFix =
        frame_saves ujFix fbPng "p" 0 0 scanPageFix.frames ∧
      (∀ s ∈ frame_saves ujFix fbPng "p" 0 0 scanPageFix.frames, s.ext = "jpg") ∧
      (∀ j fr, scanPageFix.frames[j]? = some fr → ∀ fsrc, fr.src = some fsrc →
        fr.fetchOk = true → ∀ k img, fr.imgs[k]? = some img → ∀ isrc, img.src = some isrc →
        ∀ ct, fbPng (ujFix (ujFix "p" fsrc) isrc) = some ct →
        (⟨"page_" ++ pad 3 (0 + 1) ++ "frame" ++ pad 2 (j + 1) ++ "img" ++ pad 2 (k + 1),
            "jpg"⟩ : Saved) ∈ download_scan_page ujFix fbPng "p" 0 scanPageFix) ∧
      (∀ page2 : ScanPage, direct_saves ujFix fbPng "p" 0 0 page2.imgs ≠ [] →
        download_scan_page ujFix fbPng "p" 0 page2 =
          direct_saves ujFix fbPng "p" 0 0 page2.imgs)) :=
  ⟨by decide, C10_frame_fallback_unconditional ujFix fbPng "p" 0 scanPageFix (by decide)⟩

end Akhand
